import Mathlib

/-!
Shallow embedding of the note-authoring component in
src/src/components/new-note-card.tsx.

The component keeps React state (shouldShowOnboarding, isRecording, content,
selectedFolderId), two mutable refs (speechRecognitionRef, isRecordingRef),
and wires event handlers for the platform speech-recognition stream.  We model
one component instance as an explicit state record.  Platform streams are
identified by numeric handles; `live` is the set of streams that have been
started and not yet stopped or ended, `recRef` is the handle currently stored
in speechRecognitionRef.current.  Scheduled setTimeout restart callbacks are
the `pending` list (each entry records the delay in milliseconds).  Calls to
the external onNoteCreated callback and the toast notifications are logged so
that theorems can speak about them.
-/

set_option linter.unusedVariables false

/-- Kinds of toast notification the component emits. -/
inductive ToastKind where
  | error
  | warning
  | success
  deriving DecidableEq, Repr

/-- One recognition result segment, an ordered list of alternative
transcripts; index 0 is the first (best) alternative. -/
structure SpeechRecognitionResult where
  alternatives : List String
  deriving DecidableEq, Repr

/-- The transcript of the first alternative of a segment, result[0].transcript
in the source (the platform always supplies at least one alternative; the
default covers the vacuous case). -/
def firstAlternative (r : SpeechRecognitionResult) : String :=
  r.alternatives.headD ""

/-- State of one NewNoteCard component instance, together with logs of its
externally observable effects. -/
structure St where
  shouldShowOnboarding : Bool
  isRecording : Bool
  content : String
  selectedFolderId : Option String
  recRef : Option Nat
  isRecordingRef : Bool
  nextId : Nat
  live : List Nat
  pending : List Nat
  calls : List (String × Option String)
  toasts : List ToastKind
  deriving DecidableEq, Repr

/-- The initial state of a freshly mounted component: useState initialisers
and useRef initialisers from the source. -/
def init : St :=
  { shouldShowOnboarding := true
    isRecording := false
    content := ""
    selectedFolderId := none
    recRef := none
    isRecordingRef := false
    nextId := 0
    live := []
    pending := []
    calls := []
    toasts := [] }

/-- The delay passed to setTimeout in the onend handler. -/
def restartDelayMs : Nat := 200

/-- The idiom `if (speechRecognitionRef.current) { current.stop();
current = null; }` shared by startRecognition, handleStopRecording and the
useEffect cleanup: asks the platform to end the referenced stream (removing it
from the live set) and clears the ref. -/
def releaseStream (s : St) : St :=
  match s.recRef with
  | some h => { s with recRef := none, live := s.live.erase h }
  | none => s

/-- startRecognition: stops and clears any existing recognition instance,
creates a fresh one (configured pt-BR, continuous, interim, one alternative),
installs the handlers and starts it. -/
def startRecognition (s : St) : St :=
  let s1 := releaseStream s
  { s1 with
    recRef := some s1.nextId
    nextId := s1.nextId + 1
    live := s1.live ++ [s1.nextId] }

/-- handleStartRecording: if the SpeechRecognition API is unavailable, toast
an error and return without touching any state; otherwise set both recording
flags, hide the onboarding text and start recognition.  (The Brave advisory
check is asynchronous, never blocks and never mutates component state, so it
is not part of the state model.) -/
def handleStartRecording (available : Bool) (s : St) : St :=
  if available = false then
    { s with toasts := s.toasts ++ [ToastKind.error] }
  else
    startRecognition
      { s with
        isRecording := true
        isRecordingRef := true
        shouldShowOnboarding := false }

/-- handleStopRecording: clears both recording flags first, then stops and
releases the platform stream.  The flag write happens synchronously before
the platform is asked to end the stream. -/
def handleStopRecording (s : St) : St :=
  releaseStream { s with isRecording := false, isRecordingRef := false }

/-- The onresult handler: rebuilds the transcription by folding over all
currently known result segments, concatenating result[0].transcript of each,
and overwrites content with it. -/
def onresult (results : List SpeechRecognitionResult) (s : St) : St :=
  { s with
    content := results.foldl (fun text r => text ++ firstAlternative r) "" }

/-- The onerror handler: logs the event; if isRecordingRef.current is false it
also sets isRecording to false.  It never touches the stream handle, the
draft, or the restart schedule. -/
def onerror (s : St) : St :=
  if s.isRecordingRef = false then { s with isRecording := false } else s

/-- The onend handler: if isRecordingRef.current is false (intentional stop)
it clears isRecording and the ref and returns; otherwise it schedules exactly
one restart after restartDelayMs. -/
def onend (s : St) : St :=
  if s.isRecordingRef = false then
    { s with isRecording := false, recRef := none }
  else
    { s with pending := s.pending ++ [restartDelayMs] }

/-- A platform stream `h` ends (spontaneously, or following a stop request):
it ceases to be live and the onend handler runs. -/
def recognitionEnded (h : Nat) (s : St) : St :=
  onend { s with live := s.live.erase h }

/-- A scheduled restart timeout fires: the callback re-reads
isRecordingRef.current at fire time and calls startRecognition only if it is
still true. -/
def restartTimerFire (s : St) : St :=
  match s.pending with
  | [] => s
  | _ :: rest =>
    if s.isRecordingRef = true then startRecognition { s with pending := rest }
    else { s with pending := rest }

/-- handleStartEditor: hides the onboarding text. -/
def handleStartEditor (s : St) : St :=
  { s with shouldShowOnboarding := false }

/-- handleContentChanged: manual typing overwrites content; typing it down to
empty brings the onboarding text back. -/
def handleContentChanged (text : String) (s : St) : St :=
  { s with
    content := text
    shouldShowOnboarding := if text = "" then true else s.shouldShowOnboarding }

/-- The folder select onChange handler:
setSelectedFolderId(e.target.value || null) — the empty option value is
normalised to null. -/
def selectFolderOnChange (value : String) (s : St) : St :=
  { s with selectedFolderId := if value = "" then none else some value }

/-- handleSaveNote: a no-op when content is empty; otherwise invokes
onNoteCreated(content, selectedFolderId) once, resets the draft and toasts a
success message. -/
def handleSaveNote (s : St) : St :=
  if s.content = "" then s
  else
    { s with
      calls := s.calls ++ [(s.content, s.selectedFolderId)]
      content := ""
      selectedFolderId := none
      shouldShowOnboarding := true
      toasts := s.toasts ++ [ToastKind.success] }

/-- handleDialogOpenChange: on close, stop recording and reset the whole
draft; opening delegates to the external handleOpen only. -/
def handleDialogOpenChange (nextOpen : Bool) (s : St) : St :=
  if nextOpen = false then
    let s1 := handleStopRecording s
    { s1 with
      content := ""
      selectedFolderId := none
      shouldShowOnboarding := true }
  else s

/-- The useEffect cleanup run on unmount: stops and releases the platform
stream if one is referenced. -/
def useEffectCleanup (s : St) : St :=
  releaseStream s

/-- Events that can reach one component instance: user interactions, platform
stream callbacks, the scheduled restart timer, and lifecycle transitions. -/
inductive Ev where
  | startRecording (available : Bool)
  | stopRecording
  | startEditor
  | contentChanged (text : String)
  | folderChanged (value : String)
  | saveNote
  | result (results : List SpeechRecognitionResult)
  | error
  | ended (h : Nat)
  | timer
  | dialogOpenChange (nextOpen : Bool)
  | unmount
  deriving DecidableEq, Repr

/-- Dispatch one event to its handler. -/
def step (e : Ev) (s : St) : St :=
  match e with
  | .startRecording available => handleStartRecording available s
  | .stopRecording => handleStopRecording s
  | .startEditor => handleStartEditor s
  | .contentChanged text => handleContentChanged text s
  | .folderChanged value => selectFolderOnChange value s
  | .saveNote => handleSaveNote s
  | .result results => onresult results s
  | .error => onerror s
  | .ended h => recognitionEnded h s
  | .timer => restartTimerFire s
  | .dialogOpenChange nextOpen => handleDialogOpenChange nextOpen s
  | .unmount => useEffectCleanup s

/-- Run a sequence of events from a state. -/
def run (s : St) (evs : List Ev) : St :=
  evs.foldl (fun t e => step e t) s

/-- Does an event start a new dictation session through the public entry
point handleStartRecording? -/
def isStart : Ev → Bool
  | .startRecording _ => true
  | _ => false

/-- The session is stopped: both recording flags are down, no stream is
referenced and no stream is live. -/
def SessionStopped (s : St) : Prop :=
  s.isRecording = false ∧ s.isRecordingRef = false ∧
    s.recRef = none ∧ s.live = []

/-- Invariant of every reachable component state: at most one live stream,
and a live stream is exactly the referenced one with the recording flag up; a
referenced stream implies the recording flag; the React isRecording state
mirrors the isRecordingRef ref; selectedFolderId is never the empty string,
and no empty-string folder id is ever handed to onNoteCreated. -/
def ReachInv (s : St) : Prop :=
  (s.live = [] ∨ ∃ h, s.live = [h] ∧ s.recRef = some h ∧ s.isRecordingRef = true) ∧
  (s.recRef.isSome = true → s.isRecordingRef = true) ∧
  s.isRecording = s.isRecordingRef ∧
  s.selectedFolderId ≠ some "" ∧
  (∀ p ∈ s.calls, p.2 ≠ some "")

theorem releaseStream_spec (s : St)
    (hlive : s.live = [] ∨ ∃ h, s.live = [h] ∧ s.recRef = some h) :
    releaseStream s = { s with recRef := none, live := [] } := by
  cases hr : s.recRef with
  | none =>
    have hl : s.live = [] := by
      rcases hlive with h | ⟨h0, hl0, hr0⟩
      · exact h
      · rw [hr] at hr0; exact absurd hr0 (by simp)
    cases s
    simp_all [releaseStream]
  | some h =>
    have hl : s.live.erase h = [] := by
      rcases hlive with h' | ⟨h0, hl0, hr0⟩
      · simp [h']
      · rw [hr] at hr0
        injection hr0 with hh
        subst hh
        simp [hl0]
    simp [releaseStream, hr, hl]

theorem reachInv_startRecognition (s : St) (h1 : ReachInv s) (h2 : s.isRecordingRef = true) :
    ReachInv (startRecognition s) := by
  obtain ⟨hlive, href, hrec, hfold, hcalls⟩ := h1
  have hlive2 : s.live = [] ∨ ∃ h, s.live = [h] ∧ s.recRef = some h := by
    rcases hlive with h | ⟨h0, hl0, hr0, _⟩
    · exact Or.inl h
    · exact Or.inr ⟨h0, hl0, hr0⟩
  rw [startRecognition, releaseStream_spec s hlive2]
  refine ⟨Or.inr ⟨s.nextId, by simp, by simp, by simp [h2]⟩, by simp [h2],
    by simpa [h2] using hrec, by simpa using hfold, by simpa using hcalls⟩

theorem reachInv_handleStopRecording (s : St) (h1 : ReachInv s) :
    ReachInv (handleStopRecording s) ∧ SessionStopped (handleStopRecording s) := by
  obtain ⟨hlive, href, hrec, hfold, hcalls⟩ := h1
  rw [handleStopRecording,
    releaseStream_spec { s with isRecording := false, isRecordingRef := false } ?hl]
  case hl =>
    rcases hlive with h | ⟨h0, hl0, hr0, _⟩
    · exact Or.inl (by simpa using h)
    · exact Or.inr ⟨h0, by simpa using hl0, by simpa using hr0⟩
  exact ⟨⟨Or.inl (by simp), by simp, by simp, by simpa using hfold, by simpa using hcalls⟩,
    by simp [SessionStopped]⟩

theorem reachInv_congr (s t : St) (h1 : t.live = s.live) (h2 : t.recRef = s.recRef)
    (h3 : t.isRecordingRef = s.isRecordingRef) (h4 : t.isRecording = s.isRecording)
    (h5 : t.selectedFolderId = s.selectedFolderId) (h6 : t.calls = s.calls)
    (h : ReachInv s) : ReachInv t := by
  unfold ReachInv at h ⊢
  rw [h1, h2, h3, h4, h5, h6]
  exact h

theorem reachInv_handleStartRecording (available : Bool) (s : St) (h1 : ReachInv s) :
    ReachInv (handleStartRecording available s) := by
  cases available with
  | false =>
    exact reachInv_congr s _ rfl rfl rfl rfl rfl rfl h1
  | true =>
    have e : handleStartRecording true s =
        startRecognition
          { s with
            isRecording := true
            isRecordingRef := true
            shouldShowOnboarding := false } := rfl
    rw [e]
    obtain ⟨hlive, href, hrec, hfold, hcalls⟩ := h1
    refine reachInv_startRecognition _ ⟨?_, by simp, by simp, by simpa using hfold,
      by simpa using hcalls⟩ (by simp)
    rcases hlive with h | ⟨h0, hl0, hr0, hrr⟩
    · exact Or.inl (by simpa using h)
    · exact Or.inr ⟨h0, by simpa using hl0, by simpa using hr0, by simp⟩

theorem onerror_eq_self (s : St) (hrec : s.isRecording = s.isRecordingRef) :
    onerror s = s := by
  unfold onerror
  split
  · rename_i hr
    cases s
    simp_all
  · rfl

theorem reachInv_onerror (s : St) (h1 : ReachInv s) : ReachInv (onerror s) := by
  obtain ⟨hlive, href, hrec, hfold, hcalls⟩ := h1
  rw [onerror_eq_self s hrec]
  exact ⟨hlive, href, hrec, hfold, hcalls⟩

theorem reachInv_onend (s : St) (h1 : ReachInv s) : ReachInv (onend s) := by
  obtain ⟨hlive, href, hrec, hfold, hcalls⟩ := h1
  unfold onend
  split
  · rename_i hr
    have hl : s.live = [] := by
      rcases hlive with h | ⟨h0, _, _, hrr⟩
      · exact h
      · rw [hr] at hrr; cases hrr
    exact ⟨Or.inl (by simpa using hl), by simp, by simp [hr], by simpa using hfold,
      by simpa using hcalls⟩
  · exact reachInv_congr s _ rfl rfl rfl rfl rfl rfl
      ⟨hlive, href, hrec, hfold, hcalls⟩

theorem reachInv_eraseLive (h : Nat) (s : St) (h1 : ReachInv s) :
    ReachInv { s with live := s.live.erase h } := by
  obtain ⟨hlive, href, hrec, hfold, hcalls⟩ := h1
  refine ⟨?_, by simpa using href, by simpa using hrec, by simpa using hfold,
    by simpa using hcalls⟩
  rcases hlive with hl | ⟨h0, hl0, hr0, hrr⟩
  · exact Or.inl (by simp [hl])
  · by_cases he : h0 = h
    · subst he
      exact Or.inl (by simp [hl0])
    · refine Or.inr ⟨h0, ?_, by simpa using hr0, by simpa using hrr⟩
      simp only [hl0]
      show [h0].erase h = [h0]
      rw [List.erase_cons]
      simp [he]

theorem reachInv_recognitionEnded (h : Nat) (s : St) (h1 : ReachInv s) :
    ReachInv (recognitionEnded h s) :=
  reachInv_onend _ (reachInv_eraseLive h s h1)

theorem reachInv_restartTimerFire (s : St) (h1 : ReachInv s) :
    ReachInv (restartTimerFire s) := by
  unfold restartTimerFire
  split
  · exact h1
  · rename_i d rest hp
    have h2 : ReachInv { s with pending := rest } :=
      reachInv_congr s _ rfl rfl rfl rfl rfl rfl h1
    split
    · rename_i hr
      exact reachInv_startRecognition _ h2 (by simpa using hr)
    · exact h2

theorem reachInv_selectFolderOnChange (value : String) (s : St) (h1 : ReachInv s) :
    ReachInv (selectFolderOnChange value s) := by
  obtain ⟨hlive, href, hrec, hfold, hcalls⟩ := h1
  refine ⟨?_, by simpa using href, by simpa using hrec, ?_, by simpa using hcalls⟩
  · rcases hlive with h | ⟨h0, hl0, hr0, hrr⟩
    · exact Or.inl (by simpa using h)
    · exact Or.inr ⟨h0, by simpa using hl0, by simpa using hr0, by simpa using hrr⟩
  · show (if value = "" then none else some value) ≠ some ""
    split
    · simp
    · rename_i hv
      intro hc
      injection hc with hc2
      exact hv hc2

theorem reachInv_handleSaveNote (s : St) (h1 : ReachInv s) :
    ReachInv (handleSaveNote s) := by
  obtain ⟨hlive, href, hrec, hfold, hcalls⟩ := h1
  unfold handleSaveNote
  split
  · exact ⟨hlive, href, hrec, hfold, hcalls⟩
  · refine ⟨?_, by simpa using href, by simpa using hrec, by simp, ?_⟩
    · rcases hlive with h | ⟨h0, hl0, hr0, hrr⟩
      · exact Or.inl (by simpa using h)
      · exact Or.inr ⟨h0, by simpa using hl0, by simpa using hr0, by simpa using hrr⟩
    · intro p hp
      have hp2 : p ∈ s.calls ∨ p = (s.content, s.selectedFolderId) := by
        simpa using hp
      rcases hp2 with hp2 | hp2
      · exact hcalls p hp2
      · rw [hp2]
        simpa using hfold

theorem reachInv_handleDialogOpenChange (nextOpen : Bool) (s : St) (h1 : ReachInv s) :
    ReachInv (handleDialogOpenChange nextOpen s) := by
  unfold handleDialogOpenChange
  split
  · obtain ⟨h2, h3⟩ := reachInv_handleStopRecording s h1
    obtain ⟨hlive, href, hrec, hfold, hcalls⟩ := h2
    obtain ⟨hr1, hr2, hr3, hr4⟩ := h3
    exact ⟨Or.inl (by simpa using hr4), by simpa using href, by simpa using hrec,
      by simp, by simpa using hcalls⟩
  · exact h1

theorem reachInv_useEffectCleanup (s : St) (h1 : ReachInv s) :
    ReachInv (useEffectCleanup s) ∧
      (useEffectCleanup s).recRef = none ∧ (useEffectCleanup s).live = [] := by
  obtain ⟨hlive, href, hrec, hfold, hcalls⟩ := h1
  have hlive2 : s.live = [] ∨ ∃ h, s.live = [h] ∧ s.recRef = some h := by
    rcases hlive with h | ⟨h0, hl0, hr0, _⟩
    · exact Or.inl h
    · exact Or.inr ⟨h0, hl0, hr0⟩
  rw [useEffectCleanup, releaseStream_spec s hlive2]
  exact ⟨⟨Or.inl rfl, by simp, by simpa using hrec, by simpa using hfold,
    by simpa using hcalls⟩, by simp, rfl⟩

theorem reachInv_step (e : Ev) (s : St) (h1 : ReachInv s) : ReachInv (step e s) := by
  cases e with
  | startRecording available => exact reachInv_handleStartRecording available s h1
  | stopRecording => exact (reachInv_handleStopRecording s h1).1
  | startEditor => exact reachInv_congr s _ rfl rfl rfl rfl rfl rfl h1
  | contentChanged text => exact reachInv_congr s _ rfl rfl rfl rfl rfl rfl h1
  | folderChanged value => exact reachInv_selectFolderOnChange value s h1
  | saveNote => exact reachInv_handleSaveNote s h1
  | result results => exact reachInv_congr s _ rfl rfl rfl rfl rfl rfl h1
  | error => exact reachInv_onerror s h1
  | ended h => exact reachInv_recognitionEnded h s h1
  | timer => exact reachInv_restartTimerFire s h1
  | dialogOpenChange nextOpen => exact reachInv_handleDialogOpenChange nextOpen s h1
  | unmount => exact (reachInv_useEffectCleanup s h1).1

theorem reachInv_init : ReachInv init := by
  refine ⟨Or.inl rfl, by simp [init], rfl, by simp [init], by simp [init]⟩

theorem reachInv_run (s : St) (evs : List Ev) (h1 : ReachInv s) :
    ReachInv (run s evs) := by
  induction evs generalizing s with
  | nil => exact h1
  | cons e evs ih => exact ih (step e s) (reachInv_step e s h1)

theorem handleStopRecording_of_stopped (s : St) (h1 : SessionStopped s) :
    handleStopRecording s = s := by
  obtain ⟨ha, hb, hc, hd⟩ := h1
  unfold handleStopRecording releaseStream
  cases s
  simp_all

theorem sessionStopped_step (e : Ev) (s : St) (h1 : SessionStopped s)
    (h2 : isStart e = false) : SessionStopped (step e s) := by
  obtain ⟨ha, hb, hc, hd⟩ := h1
  cases e with
  | startRecording available => simp [isStart] at h2
  | stopRecording =>
    show SessionStopped (handleStopRecording s)
    rw [handleStopRecording_of_stopped s ⟨ha, hb, hc, hd⟩]
    exact ⟨ha, hb, hc, hd⟩
  | startEditor => exact ⟨ha, hb, hc, hd⟩
  | contentChanged text => exact ⟨ha, hb, hc, hd⟩
  | folderChanged value => exact ⟨ha, hb, hc, hd⟩
  | saveNote =>
    show SessionStopped (handleSaveNote s)
    unfold handleSaveNote
    split
    · exact ⟨ha, hb, hc, hd⟩
    · exact ⟨ha, hb, hc, hd⟩
  | result results => exact ⟨ha, hb, hc, hd⟩
  | error =>
    show SessionStopped (onerror s)
    unfold onerror
    simp [hb, SessionStopped, ha, hc, hd]
  | ended h =>
    show SessionStopped (recognitionEnded h s)
    unfold recognitionEnded onend
    simp [hb, SessionStopped, hd]
  | timer =>
    show SessionStopped (restartTimerFire s)
    unfold restartTimerFire
    split
    · exact ⟨ha, hb, hc, hd⟩
    · simp [hb, SessionStopped, ha, hc, hd]
  | dialogOpenChange nextOpen =>
    show SessionStopped (handleDialogOpenChange nextOpen s)
    unfold handleDialogOpenChange
    split
    · rw [handleStopRecording_of_stopped s ⟨ha, hb, hc, hd⟩]
      exact ⟨ha, hb, hc, hd⟩
    · exact ⟨ha, hb, hc, hd⟩
  | unmount =>
    show SessionStopped (useEffectCleanup s)
    unfold useEffectCleanup releaseStream
    simp [hc, SessionStopped, ha, hb, hd]

theorem sessionStopped_run (s : St) (evs : List Ev) (h1 : SessionStopped s)
    (h2 : ∀ e ∈ evs, isStart e = false) : SessionStopped (run s evs) := by
  induction evs generalizing s with
  | nil => exact h1
  | cons e evs ih =>
    exact ih (step e s) (sessionStopped_step e s h1 (h2 e (by simp)))
      (fun e2 he2 => h2 e2 (by simp [he2]))

theorem releaseStream_isRecordingRef (s : St) :
    (releaseStream s).isRecordingRef = s.isRecordingRef := by
  cases hr : s.recRef <;> simp [releaseStream, hr]

theorem releaseStream_isRecording (s : St) :
    (releaseStream s).isRecording = s.isRecording := by
  cases hr : s.recRef <;> simp [releaseStream, hr]

theorem releaseStream_content (s : St) :
    (releaseStream s).content = s.content := by
  cases hr : s.recRef <;> simp [releaseStream, hr]

theorem releaseStream_pending (s : St) :
    (releaseStream s).pending = s.pending := by
  cases hr : s.recRef <;> simp [releaseStream, hr]

theorem startRecognition_listening (s : St) :
    (startRecognition s).recRef.isSome = true ∧ (startRecognition s).live ≠ [] ∧
    (startRecognition s).isRecordingRef = s.isRecordingRef ∧
    (startRecognition s).isRecording = s.isRecording ∧
    (startRecognition s).content = s.content ∧
    (startRecognition s).pending = s.pending := by
  unfold startRecognition
  exact ⟨rfl, by simp, releaseStream_isRecordingRef s, releaseStream_isRecording s,
    releaseStream_content s, releaseStream_pending s⟩

theorem foldl_concat_eq_join (rs : List SpeechRecognitionResult) (acc : String) :
    rs.foldl (fun text r => text ++ firstAlternative r) acc =
      acc ++ String.join (rs.map firstAlternative) := by
  induction rs generalizing acc with
  | nil => exact (String.append_empty acc).symm
  | cons r rs ih =>
    have e1 : (r :: rs).foldl (fun text r2 => text ++ firstAlternative r2) acc =
        rs.foldl (fun text r2 => text ++ firstAlternative r2)
          (acc ++ firstAlternative r) := rfl
    rw [e1, ih]
    apply String.ext
    simp

/-- C1: handleStopRecording clears the intentional-stop flag
(isRecordingRef.current = false) and releases the stream handle (recRef =
none, no live stream); afterwards, for every sequence of events that contains
no explicit handleStartRecording — in particular stream-ended handlers and
already-scheduled restart timer callbacks firing late — the session stays
stopped: both recording flags down, no referenced handle, no live stream, so
no restart is ever performed. -/
theorem stop_suppresses_restart_and_stays_stopped (evs0 evs : List Ev)
    (hne : ∀ e ∈ evs, isStart e = false) :
    (handleStopRecording (run init evs0)).isRecordingRef = false ∧
    (handleStopRecording (run init evs0)).recRef = none ∧
    (handleStopRecording (run init evs0)).live = [] ∧
    SessionStopped (run (handleStopRecording (run init evs0)) evs) := by
  have h1 := reachInv_run init evs0 reachInv_init
  obtain ⟨h2, h3⟩ := reachInv_handleStopRecording _ h1
  obtain ⟨ha, hb, hc, hd⟩ := h3
  exact ⟨hb, hc, hd, sessionStopped_run _ evs ⟨ha, hb, hc, hd⟩ hne⟩

/-- Witness for C1: after starting dictation and stopping it, a late ended
event, a late restart timer and a late error event leave the session
stopped. -/
theorem stop_suppresses_restart_and_stays_stopped_witness :
    (∀ e ∈ [Ev.ended 0, Ev.timer, Ev.error], isStart e = false) ∧
    SessionStopped (run (handleStopRecording (run init [Ev.startRecording true]))
      [Ev.ended 0, Ev.timer, Ev.error]) :=
  ⟨by decide, (stop_suppresses_restart_and_stays_stopped [Ev.startRecording true]
    [Ev.ended 0, Ev.timer, Ev.error] (by decide)).2.2.2⟩

/-- C2: a stream-ended event arriving while isRecordingRef.current is still
true schedules exactly one restart after the fixed 200 ms delay and preserves
the draft content; once that scheduled restart fires, the session is again
listening (flag up, a recognition instance referenced, a live stream) and the
content accumulated before the end is still intact. -/
theorem unexpected_end_schedules_single_restart (s : St) (h : Nat)
    (h1 : s.isRecordingRef = true) (h2 : s.isRecording = true)
    (h3 : s.pending = []) :
    (recognitionEnded h s).pending = [restartDelayMs] ∧
    restartDelayMs = 200 ∧
    (recognitionEnded h s).content = s.content ∧
    (restartTimerFire (recognitionEnded h s)).isRecordingRef = true ∧
    (restartTimerFire (recognitionEnded h s)).isRecording = true ∧
    (restartTimerFire (recognitionEnded h s)).recRef.isSome = true ∧
    (restartTimerFire (recognitionEnded h s)).live ≠ [] ∧
    (restartTimerFire (recognitionEnded h s)).content = s.content ∧
    (restartTimerFire (recognitionEnded h s)).pending = [] := by
  have e1 : recognitionEnded h s =
      { s with live := s.live.erase h, pending := [restartDelayMs] } := by
    unfold recognitionEnded onend
    simp [h1, h3]
  have e2 : restartTimerFire
        { s with live := s.live.erase h, pending := [restartDelayMs] } =
      startRecognition
        { s with live := s.live.erase h, pending := ([] : List Nat) } := by
    unfold restartTimerFire
    simp [h1]
  obtain ⟨p1, p2, p3, p4, p5, p6⟩ := startRecognition_listening
    { s with live := s.live.erase h, pending := ([] : List Nat) }
  rw [e1, e2]
  exact ⟨rfl, rfl, rfl, by rw [p3]; exact h1, by rw [p4]; exact h2, p1, p2, p5, p6⟩

/-- Witness for C2: a listening state with content recorded; the unexpected
end schedules one 200 ms restart and the fired restart is listening again
with the content intact. -/
theorem unexpected_end_schedules_single_restart_witness :
    ((run init [Ev.startRecording true,
        Ev.result [SpeechRecognitionResult.mk ["ola"]]]).isRecordingRef = true ∧
     (run init [Ev.startRecording true,
        Ev.result [SpeechRecognitionResult.mk ["ola"]]]).isRecording = true ∧
     (run init [Ev.startRecording true,
        Ev.result [SpeechRecognitionResult.mk ["ola"]]]).pending = []) ∧
    (recognitionEnded 0 (run init [Ev.startRecording true,
        Ev.result [SpeechRecognitionResult.mk ["ola"]]])).pending = [restartDelayMs] ∧
    (restartTimerFire (recognitionEnded 0 (run init [Ev.startRecording true,
        Ev.result [SpeechRecognitionResult.mk ["ola"]]]))).isRecordingRef = true ∧
    (restartTimerFire (recognitionEnded 0 (run init [Ev.startRecording true,
        Ev.result [SpeechRecognitionResult.mk ["ola"]]]))).content = "ola" := by
  obtain ⟨q1, _, q3, q4, _, _, _, q8, _⟩ :=
    unexpected_end_schedules_single_restart
      (run init [Ev.startRecording true,
        Ev.result [SpeechRecognitionResult.mk ["ola"]]]) 0 rfl rfl rfl
  exact ⟨⟨rfl, rfl, rfl⟩, q1, q4, by rw [q8]; rfl⟩

/-- C3: in every reachable state there is at most one live platform stream;
a live stream is exactly the one referenced by speechRecognitionRef with the
recording flags up, and a non-null referenced recognition instance implies
the session is listening (isRecording and isRecordingRef both true). -/
theorem at_most_one_live_stream (evs : List Ev) :
    (run init evs).live.length ≤ 1 ∧
    (∀ h ∈ (run init evs).live,
      (run init evs).recRef = some h ∧
      (run init evs).isRecording = true ∧ (run init evs).isRecordingRef = true) ∧
    ((run init evs).recRef.isSome = true →
      (run init evs).isRecording = true ∧ (run init evs).isRecordingRef = true) := by
  obtain ⟨hlive, href, hrec, hfold, hcalls⟩ := reachInv_run init evs reachInv_init
  refine ⟨?_, ?_, ?_⟩
  · rcases hlive with h | ⟨h0, hl0, _, _⟩
    · simp [h]
    · simp [hl0]
  · intro h hm
    rcases hlive with hl | ⟨h0, hl0, hr0, hrr⟩
    · rw [hl] at hm
      cases hm
    · rw [hl0] at hm
      simp at hm
      subst hm
      exact ⟨hr0, by rw [hrec]; exact hrr, hrr⟩
  · intro hs
    have hr := href hs
    exact ⟨by rw [hrec]; exact hr, hr⟩

/-- Witness for C3: starting twice in a row keeps a single live stream, the
second handle replacing the first, and the referenced handle implies
listening. -/
theorem at_most_one_live_stream_witness :
    (run init [Ev.startRecording true, Ev.startRecording true]).live.length ≤ 1 ∧
    (run init [Ev.startRecording true, Ev.startRecording true]).recRef = some 1 ∧
    (run init [Ev.startRecording true, Ev.startRecording true]).isRecording = true :=
  ⟨(at_most_one_live_stream [Ev.startRecording true, Ev.startRecording true]).1, rfl,
    ((at_most_one_live_stream [Ev.startRecording true, Ev.startRecording true]).2.2
      rfl).1⟩

/-- C4: saving a draft with non-empty content invokes the onNoteCreated
callback exactly once, with exactly the pair (content, selectedFolderId), and
afterwards content is empty, no folder is selected and the onboarding text is
visible again. -/
theorem save_nonempty_invokes_callback_once_and_resets (s : St)
    (h : s.content ≠ "") :
    (handleSaveNote s).calls = s.calls ++ [(s.content, s.selectedFolderId)] ∧
    (handleSaveNote s).content = "" ∧
    (handleSaveNote s).selectedFolderId = none ∧
    (handleSaveNote s).shouldShowOnboarding = true := by
  unfold handleSaveNote
  split
  · rename_i hc
    exact absurd hc h
  · exact ⟨rfl, rfl, rfl, rfl⟩

/-- Witness for C4: saving content "hello world" with folder "f1" logs the
single call ("hello world", some "f1") and resets the draft. -/
theorem save_nonempty_invokes_callback_once_and_resets_witness :
    ({ init with content := "hello world", selectedFolderId := some "f1" } : St).content ≠ "" ∧
    (handleSaveNote { init with content := "hello world", selectedFolderId := some "f1" }).calls =
      [("hello world", some "f1")] ∧
    (handleSaveNote { init with content := "hello world", selectedFolderId := some "f1" }).content = "" ∧
    (handleSaveNote { init with content := "hello world", selectedFolderId := some "f1" }).selectedFolderId = none ∧
    (handleSaveNote { init with content := "hello world", selectedFolderId := some "f1" }).shouldShowOnboarding = true := by
  obtain ⟨w1, w2, w3, w4⟩ := save_nonempty_invokes_callback_once_and_resets
    { init with content := "hello world", selectedFolderId := some "f1" } (by decide)
  exact ⟨by decide, by simpa using w1, w2, w3, w4⟩

/-- C5: saving with empty content is a complete no-op: no callback fires and
the whole state, draft fields included, is unchanged. -/
theorem save_empty_is_noop (s : St) (h : s.content = "") :
    handleSaveNote s = s := by
  unfold handleSaveNote
  split
  · rfl
  · rename_i hc
    exact absurd h hc

/-- Witness for C5: saving the initial empty draft changes nothing. -/
theorem save_empty_is_noop_witness :
    init.content = "" ∧ handleSaveNote init = init :=
  ⟨rfl, save_empty_is_noop init rfl⟩

/-- C6: when the speech-recognition capability is unavailable,
handleStartRecording surfaces exactly one error toast and performs no other
state mutation: session state, stream handle, recording flags, draft content
and onboarding flag are all unchanged. -/
theorem start_unsupported_no_state_change (s : St) :
    handleStartRecording false s = { s with toasts := s.toasts ++ [ToastKind.error] } :=
  rfl

/-- Witness for C6: starting on an unsupported platform from the initial
state only adds the error toast. -/
theorem start_unsupported_no_state_change_witness :
    handleStartRecording false init = { init with toasts := [ToastKind.error] } := by
  have := start_unsupported_no_state_change init
  simpa using this

/-- C7: the content pushed by the onresult handler is the in-order
concatenation of the first alternative of all currently known result
segments, and it is a function of the current result list alone: a later
result event fully replaces whatever an earlier event had produced, so
interim text is overwritten, never appended or duplicated. -/
theorem onresult_replaces_transcript (rs1 rs2 : List SpeechRecognitionResult)
    (s : St) :
    (onresult rs2 s).content = String.join (rs2.map firstAlternative) ∧
    onresult rs2 (onresult rs1 s) = onresult rs2 s := by
  constructor
  · show rs2.foldl (fun text r => text ++ firstAlternative r) "" = _
    rw [foldl_concat_eq_join]
    exact String.empty_append _
  · rfl

/-- Witness for C7: an interim segment "ola " followed by the revised event
whose first segment is final yields the revised concatenation, not a
duplicate. -/
theorem onresult_replaces_transcript_witness :
    (onresult [SpeechRecognitionResult.mk ["ola mundo"],
      SpeechRecognitionResult.mk ["!"]] init).content =
      String.join ([SpeechRecognitionResult.mk ["ola mundo"],
        SpeechRecognitionResult.mk ["!"]].map firstAlternative) ∧
    onresult [SpeechRecognitionResult.mk ["ola mundo"], SpeechRecognitionResult.mk ["!"]]
        (onresult [SpeechRecognitionResult.mk ["ola"]] init) =
      onresult [SpeechRecognitionResult.mk ["ola mundo"],
        SpeechRecognitionResult.mk ["!"]] init :=
  onresult_replaces_transcript [SpeechRecognitionResult.mk ["ola"]]
    [SpeechRecognitionResult.mk ["ola mundo"], SpeechRecognitionResult.mk ["!"]] init

/-- C8: in every reachable state the onerror handler changes nothing at all:
recording flags, stream handle, draft content and the restart schedule are
identical before and after, so an error event never stops the session and
never triggers a restart. -/
theorem onerror_changes_no_state (evs : List Ev) :
    onerror (run init evs) = run init evs := by
  obtain ⟨_, _, hrec, _, _⟩ := reachInv_run init evs reachInv_init
  exact onerror_eq_self _ hrec

/-- Witness for C8: an error event during an active dictation session leaves
the state untouched. -/
theorem onerror_changes_no_state_witness :
    onerror (run init [Ev.startRecording true]) = run init [Ev.startRecording true] :=
  onerror_changes_no_state [Ev.startRecording true]

/-- C9: the unmount exit path falsifies the claim, and the code is the slip:
the useEffect cleanup stops and releases the platform stream but, unlike
handleStopRecording, never clears isRecordingRef.  Unmounting while
dictating therefore leaves the intentional-stop flag reading true, so the
stopped stream’s late ended event schedules a restart and the fired timer
starts a brand-new live stream (here handle 1) after the surface is gone:
the session is not stopped on this exit path, contradicting the claimed
stop-on-every-exit guarantee. -/
theorem unmount_cleanup_leaves_restart_flag_resurrecting_stream :
    (run init [Ev.startRecording true, Ev.unmount]).isRecordingRef = true ∧
    (run init [Ev.startRecording true, Ev.unmount]).recRef = none ∧
    (run init [Ev.startRecording true, Ev.unmount]).live = [] ∧
    (run init [Ev.startRecording true, Ev.unmount,
      Ev.ended 0]).pending = [restartDelayMs] ∧
    (run init [Ev.startRecording true, Ev.unmount, Ev.ended 0,
      Ev.timer]).live = [1] ∧
    (run init [Ev.startRecording true, Ev.unmount, Ev.ended 0,
      Ev.timer]).recRef = some 1 ∧
    (run init [Ev.startRecording true, Ev.unmount, Ev.ended 0,
      Ev.timer]).isRecordingRef = true :=
  ⟨rfl, rfl, rfl, rfl, rfl, rfl, rfl⟩

/-- C10: selectedFolderId is never the empty string: it is null initially,
the empty option value is normalised to null by the select onChange handler,
every reachable state has it null or non-empty, and every folder id ever
handed to onNoteCreated is null or non-empty. -/
theorem selected_folder_never_empty_string (evs : List Ev) :
    init.selectedFolderId = none ∧
    (selectFolderOnChange "" (run init evs)).selectedFolderId = none ∧
    (run init evs).selectedFolderId ≠ some "" ∧
    (∀ p ∈ (run init evs).calls, p.2 ≠ some "") := by
  obtain ⟨_, _, _, hfold, hcalls⟩ := reachInv_run init evs reachInv_init
  exact ⟨rfl, by simp [selectFolderOnChange], hfold, hcalls⟩

/-- Witness for C10: selecting the empty option then a real folder, typing
and saving never produces an empty-string folder id. -/
theorem selected_folder_never_empty_string_witness :
    (run init [Ev.folderChanged "", Ev.folderChanged "f1", Ev.contentChanged "x",
      Ev.saveNote]).selectedFolderId ≠ some "" :=
  (selected_folder_never_empty_string [Ev.folderChanged "", Ev.folderChanged "f1",
    Ev.contentChanged "x", Ev.saveNote]).2.2.1
